import Mathlib

/-!
Verification of the Apple-Refurbished-Notify pipeline.

This file gives a shallow embedding, in Lean, of the diff/match/notify
pipeline of the repository: the product-key resolver and product history
keying (`src/services/firebase.js`), the tracker's new-product detection,
spec parser, rule filter and notification formatter
(`src/unnamed/part_002`, class `AppleTracker`), and the scraper's rule
filter with storage parsing (`src/unnamed/part_000`, class
`AppleRefurbishedScraper`).  JS strings are Lean `String`s, JS numbers in
rule filters are `Int`, the float arithmetic of `parseStorageSize`
(decimal literals scaled by 1000) is embedded exactly in `ℚ`, JS `null` /
`undefined` fields are `Option`, and a Firestore `Map` is represented by
its key list.  Theorems about these definitions settle the frozen claims.
-/

/-! ## Basic character and string helpers (JS primitive semantics) -/

/-- JS `\d`: the ASCII digits 0-9. -/
def isDigitCh (c : Char) : Bool := c.isDigit

/-- JS `\s` restricted to the ASCII whitespace characters; the source
normalizes the only non-ASCII whitespace it meets (U+00A0) to a plain
space before any pattern is applied. -/
def isSpaceCh (c : Char) : Bool :=
  c = ' ' || c = '\t' || c = '\n' || c = '\r' || c = '\x0b' || c = '\x0c'

/-- JS `.` (no `s` flag): any character except a line terminator. -/
def isDotCh (c : Char) : Bool :=
  c ≠ '\n' && c ≠ '\r' && c ≠ '\u2028' && c ≠ '\u2029'

/-- Numeric value of a digit list, most significant first (exact, unlike
JS floats; all values met here are far below 2^53 so this is faithful). -/
def digitsToNat (l : List Char) : Nat :=
  l.foldl (fun acc c => acc * 10 + (c.toNat - '0'.toNat)) 0

/-- Substring containment test on character lists (JS `String.includes`). -/
def containsSub : List Char → List Char → Bool
  | [], needle => needle.isEmpty
  | hay@(_ :: t), needle => needle.isPrefixOf hay || containsSub t needle

/-- Leftmost-match scan: try the position matcher at every suffix, left to
right, returning the first success (JS regex leftmost-match discipline). -/
def scanFirst (m : List Char → Option α) : List Char → Option α
  | [] => m []
  | l@(_ :: t) =>
    match m l with
    | some r => some r
    | none => scanFirst m t

/-! ## Data model -/

/-- The `specs` record built by `parseSpecs` (src/unnamed/part_002,
lines 554-562); every field starts `null`, `category` defaults later. -/
structure ProductSpecs where
  screenSize : Option String := none
  chip : Option String := none
  memory : Option String := none
  storage : Option String := none
  color : Option String := none
  productType : Option String := none
  category : String := "Other"
deriving Repr, DecidableEq

/-- A scraped product as consumed by the pipeline (name, display price,
description, listing URL plus the derived specs). -/
structure Product where
  name : String
  price : String
  description : String
  url : String
  specs : ProductSpecs
deriving Repr, DecidableEq

/-- Convenience constructor for concrete test products. -/
def mkProduct (name price url : String) : Product :=
  { name := name, price := price, description := name, url := url, specs := {} }

/-- A tracking rule's `filters` object.  `none` is a JS `undefined`
field; `some 0` / `some ""` are present-but-falsy values, which every
`if (filters.x)` guard in the source also skips. -/
structure FilterSpec where
  productType : Option String := none
  chip : Option String := none
  color : Option String := none
  minMemory : Option Int := none
  minStorage : Option String := none
  maxPrice : Option Int := none
deriving Repr, DecidableEq

namespace FirebaseService

/-- Embeds `getProductKey` (src/services/firebase.js, lines 172-174):
`url.split('?')[0]`, i.e. the prefix of the URL before the first `?`. -/
def getProductKey (url : String) : String :=
  ⟨url.data.takeWhile (fun c => c != '?')⟩

/-- Embeds `getProductId` (src/services/firebase.js, lines 176-178):
`url.split('/').pop().replace(/[^a-zA-Z0-9]/g, '_')` — the segment after
the last slash with every non-alphanumeric character turned into `_`. -/
def getProductId (url : String) : String :=
  ⟨((url.data.reverse.takeWhile (fun c => c != '/')).reverse).map
    (fun c => if c.isAlphanum then c else '_')⟩

/-- Embeds the key set of the `Map` built by `getProductHistory`
(src/services/firebase.js, lines 138-150): every stored product document
is entered under `getProductKey(data.url)`, so the membership test
`map.has(k)` is `k ∈ stored.map (getProductKey ∘ url)`. -/
def productHistoryKeys (stored : List Product) : List String :=
  stored.map (fun d => getProductKey d.url)

end FirebaseService

namespace AppleTracker

/-- Embeds `detectNewProducts` (src/unnamed/part_002, lines 166-177):
keeps each current product whose **raw** `product.url` is absent from the
history map — note the lookup key is `product.url`, not
`getProductKey(product.url)`, while the map itself is keyed by
`getProductKey`. -/
def detectNewProducts (storedProducts currentProducts : List Product) : List Product :=
  currentProducts.filter
    (fun p => !(FirebaseService.productHistoryKeys storedProducts).contains p.url)

end AppleTracker

/-! ## Rule filter engine

Both classes ship a `filterProducts`: the scraper's
(src/unnamed/part_000, lines 90-137, with `parseStorageSize` at 139-149)
and the tracker's (src/unnamed/part_002, lines 641-661). -/

/-- An exact decimal number `num / 10 ^ scale`.  `parseFloat` on a
captured `\d+(?:\.\d+)?` literal denotes this value (`parseStorageSize`
only ever scales it by 1000, which is exact), so sizes are carried as
exact decimals rather than binary floats. -/
structure DecSize where
  num : Nat
  scale : Nat
deriving Repr, DecidableEq

/-- The rational value of an exact decimal. -/
def DecSize.val (d : DecSize) : ℚ := (d.num : ℚ) / ((10 : ℚ) ^ d.scale)

/-- The JS `<` comparison on two sizes, computed by cross-multiplication
(both denominators are positive powers of ten). -/
def DecSize.lt (a b : DecSize) : Bool :=
  decide (a.num * 10 ^ b.scale < b.num * 10 ^ a.scale)

/-- Position matcher for `/(\d+(?:\.\d+)?)(GB|TB)/`: a maximal digit run,
a greedy optional fractional part (dropped again if no unit follows it),
then `GB` or `TB`.  Returns integer digits, fraction digits and whether
the unit was `TB`. -/
def matchNumUnitAt (l : List Char) : Option (List Char × List Char × Bool) :=
  let ds := l.takeWhile isDigitCh
  if ds.isEmpty then none
  else
    let rest := l.drop ds.length
    let tryUnit : List Char → Option Bool := fun r =>
      if ['G', 'B'].isPrefixOf r then some false
      else if ['T', 'B'].isPrefixOf r then some true
      else none
    match rest with
    | '.' :: r2 =>
      let fs := r2.takeWhile isDigitCh
      if fs.isEmpty then (tryUnit rest).map (fun tb => (ds, [], tb))
      else
        match tryUnit (r2.drop fs.length) with
        | some tb => some (ds, fs, tb)
        | none => (tryUnit rest).map (fun tb => (ds, [], tb))
    | _ => (tryUnit rest).map (fun tb => (ds, [], tb))

/-- Embeds `parseStorageSize` (src/unnamed/part_000, lines 139-149):
falsy input or no `/(\d+(?:\.\d+)?)(GB|TB)/` match yields 0; a `TB`
match is scaled by 1000, a `GB` match is taken as is. -/
def parseStorageSize (storage : Option String) : DecSize :=
  match storage with
  | none => ⟨0, 0⟩
  | some s =>
    if s.isEmpty then ⟨0, 0⟩
    else
      match scanFirst matchNumUnitAt s.data with
      | none => ⟨0, 0⟩
      | some (ds, fs, tb) =>
        let base : DecSize := ⟨digitsToNat ds * 10 ^ fs.length + digitsToNat fs, fs.length⟩
        if tb then ⟨base.num * 1000, base.scale⟩ else base

/-- Embeds JS `parseInt` as used on spec strings (`parseInt(specs.memory)`
and friends): skip ASCII whitespace, optional sign, then a leading run of
decimal digits; no digits (including `parseInt(null)`) is `NaN`, here
`none`.  (The hexadecimal `0x` corner of `parseInt` is not modelled; no
claim exercises it.) -/
def jsParseInt (s : Option String) : Option Int :=
  match s with
  | none => none
  | some str =>
    let l := str.data.dropWhile isSpaceCh
    let (neg, l2) : Bool × List Char :=
      match l with
      | '-' :: t => (true, t)
      | '+' :: t => (false, t)
      | _ => (false, l)
    let ds := l2.takeWhile isDigitCh
    if ds.isEmpty then none
    else some (if neg then -(digitsToNat ds : Int) else (digitsToNat ds : Int))

/-- `price.replace(/[^\d]/g, '')`: drop every non-digit character. -/
def stripNonDigits (s : String) : List Char := s.data.filter isDigitCh

/-- The scraper's price parse (src/unnamed/part_000, lines 128-133):
`parseInt` of the digit-stripped display price; an empty remainder is
`NaN`, here `none`. -/
def parsePriceScraper (price : String) : Option Int :=
  let ds := stripNonDigits price
  if ds.isEmpty then none else some (digitsToNat ds : Int)

/-- The tracker's price parse (src/unnamed/part_002, line 655):
`parseInt(product.price?.replace(/[^\d]/g, '') || '0')` — an empty
remainder falls back to the string `'0'`, so the result is always a
number, with unparseable prices coerced to 0. -/
def parsePriceTracker (price : String) : Int :=
  let ds := stripNonDigits price
  if ds.isEmpty then 0 else (digitsToNat ds : Int)

/-- One string-valued filter field (`productType`, `chip`, `color`):
`if (filters.x && specs.x !== filters.x) return false` — an absent or
empty (falsy) filter value passes everything, otherwise the spec field
must be exactly the filter string (a `null` spec field never is). -/
def strFieldPass (filter fieldVal : Option String) : Bool :=
  match filter with
  | none => true
  | some f => if f.isEmpty then true else fieldVal == some f

/-- The `minMemory` branch (identical in part_000 lines 105-111 and
part_002 lines 649-652 once the filter value is a number): a falsy
filter passes; otherwise `parseInt(specs.memory)` must be a number `≥`
the minimum, `NaN` is excluded. -/
def minMemoryPass (filter : Option Int) (memory : Option String) : Bool :=
  match filter with
  | none => true
  | some m =>
    if m = 0 then true
    else
      match jsParseInt memory with
      | none => false
      | some v => !(decide (v < m))

/-- The `minStorage` branch (src/unnamed/part_000, lines 114-120; the
tracker has no such branch): both sides go through `parseStorageSize`
and the product is dropped iff its size is strictly below the filter's. -/
def minStoragePass (filter storage : Option String) : Bool :=
  match filter with
  | none => true
  | some f =>
    if f.isEmpty then true
    else !(DecSize.lt (parseStorageSize storage) (parseStorageSize (some f)))

/-- The scraper's `maxPrice` branch (src/unnamed/part_000, lines
128-133): a falsy filter passes; a `NaN` price is excluded; otherwise
exclude iff `price > maxPrice`. -/
def maxPriceScraperPass (filter : Option Int) (price : String) : Bool :=
  match filter with
  | none => true
  | some m =>
    if m = 0 then true
    else
      match parsePriceScraper price with
      | none => false
      | some v => !(decide (m < v))

/-- The tracker's `maxPrice` branch (src/unnamed/part_002, lines
654-657): a falsy filter passes; otherwise the 0-defaulted parsed price
must not exceed the maximum. -/
def maxPriceTrackerPass (filter : Option Int) (price : String) : Bool :=
  match filter with
  | none => true
  | some m =>
    if m = 0 then true
    else !(decide (m < parsePriceTracker price))

namespace AppleRefurbishedScraper

/-- The predicate of the scraper's `filterProducts` closure
(src/unnamed/part_000, lines 91-136), branch order as in the source:
productType, chip, minMemory, minStorage, color, maxPrice. -/
def productPasses (filters : FilterSpec) (p : Product) : Bool :=
  strFieldPass filters.productType p.specs.productType &&
  strFieldPass filters.chip p.specs.chip &&
  minMemoryPass filters.minMemory p.specs.memory &&
  minStoragePass filters.minStorage p.specs.storage &&
  strFieldPass filters.color p.specs.color &&
  maxPriceScraperPass filters.maxPrice p.price

/-- Embeds `filterProducts` (src/unnamed/part_000, lines 90-137). -/
def filterProducts (products : List Product) (filters : FilterSpec) : List Product :=
  products.filter (productPasses filters)

end AppleRefurbishedScraper

namespace AppleTracker

/-- The predicate of the tracker's `filterProducts` closure
(src/unnamed/part_002, lines 642-660), branch order as in the source:
productType, chip, color, minMemory, maxPrice — there is no `minStorage`
branch. -/
def productPasses (filters : FilterSpec) (p : Product) : Bool :=
  strFieldPass filters.productType p.specs.productType &&
  strFieldPass filters.chip p.specs.chip &&
  strFieldPass filters.color p.specs.color &&
  minMemoryPass filters.minMemory p.specs.memory &&
  maxPriceTrackerPass filters.maxPrice p.price

/-- Embeds `filterProducts` (src/unnamed/part_002, lines 641-661). -/
def filterProducts (products : List Product) (filters : FilterSpec) : List Product :=
  products.filter (productPasses filters)

end AppleTracker

/-! ## Spec parser (`parseSpecs`, src/unnamed/part_002, lines 550-639) -/

/-- `name.replace(/\u00A0/g, ' ')`: non-breaking spaces become spaces. -/
def normalizeNBSP (s : String) : List Char :=
  s.data.map (fun c => if c = '\u00A0' then ' ' else c)

/-- JS `String.replace` with a plain-string pattern: replace the first
occurrence of `needle` (if any) by `repl`. -/
def replaceFirstSub (needle repl : List Char) : List Char → List Char
  | [] => []
  | l@(c :: t) =>
    if !needle.isEmpty && needle.isPrefixOf l then repl ++ l.drop needle.length
    else c :: replaceFirstSub needle repl t

/-- JS `String.trim` on the already-normalized text (whitespace at both
ends removed). -/
def jsTrim (l : List Char) : List Char :=
  ((l.dropWhile isSpaceCh).reverse.dropWhile isSpaceCh).reverse

/-- Position matcher for `/(\d+)\s*LIT/` (used with `吋` for the screen
size and with `GB` for the bare-memory pattern): a maximal digit run,
any whitespace, then the literal; captures the digits. -/
def matchDigitsWsLit (lit l : List Char) : Option (List Char) :=
  let ds := l.takeWhile isDigitCh
  if ds.isEmpty then none
  else if lit.isPrefixOf ((l.drop ds.length).dropWhile isSpaceCh) then some ds
  else none

/-- Position matcher for `/(\d+)GB\s*LIT/` (used with `統一記憶體`,
`記憶體` and `儲存`): digits, the literal `GB`, any whitespace, then the
suffix word; captures the digits. -/
def matchDigitsGBWsLit (lit l : List Char) : Option (List Char) :=
  let ds := l.takeWhile isDigitCh
  if ds.isEmpty then none
  else
    let rest := l.drop ds.length
    if ['G', 'B'].isPrefixOf rest then
      if lit.isPrefixOf ((rest.drop 2).dropWhile isSpaceCh) then some ds else none
    else none

/-- Position matcher for `/(\d+(?:\.\d+)?)TB/`: a digit run, a greedy
optional fraction, then `TB`; captures the full decimal literal.  (When
the character after the digits is `.`, the fraction must participate: the
backtracked no-fraction branch would need `TB` to start at that `.`.) -/
def matchNumTBAt (l : List Char) : Option (List Char) :=
  let ds := l.takeWhile isDigitCh
  if ds.isEmpty then none
  else
    let rest := l.drop ds.length
    match rest with
    | '.' :: r2 =>
      let fs := r2.takeWhile isDigitCh
      if !fs.isEmpty && ['T', 'B'].isPrefixOf (r2.drop fs.length) then some (ds ++ '.' :: fs)
      else none
    | _ => if ['T', 'B'].isPrefixOf rest then some ds else none

/-- `.*SSD` from the current position: the marker `SSD`, possibly after
any run of non-line-terminator characters. -/
def reachSSD : List Char → Bool
  | [] => false
  | l@(c :: t) => ['S', 'S', 'D'].isPrefixOf l || (isDotCh c && reachSSD t)

/-- Position matcher for `/(\d+)GB.*SSD/`: digits, `GB`, then `SSD`
reachable anywhere later on the same line; captures the digits.  Note
the `.*` lets any text stand between the `GB` and the `SSD` marker. -/
def matchGBssdAt (l : List Char) : Option (List Char) :=
  let ds := l.takeWhile isDigitCh
  if ds.isEmpty then none
  else
    let rest := l.drop ds.length
    if ['G', 'B'].isPrefixOf rest then
      if reachSSD (rest.drop 2) then some ds else none
    else none

/-- The chip suffix alternation `Pro|Max|Ultra`, in source order. -/
def chipSuffixWords : List (List Char) :=
  [['P', 'r', 'o'], ['M', 'a', 'x'], ['U', 'l', 't', 'r', 'a']]

/-- Core of the chip-token grammar `M\d+(?:\s+(?:Pro|Max|Ultra))?` at a
position: the mandatory `M`+digits part with the text after it, plus —
when the greedy optional suffix also matches — the extended capture with
the text after the suffix word. -/
def matchChipTokenAt (l : List Char) :
    Option ((List Char × List Char) × Option (List Char × List Char)) :=
  match l with
  | 'M' :: r =>
    let ds := r.takeWhile isDigitCh
    if ds.isEmpty then none
    else
      let rest := r.drop ds.length
      let base := 'M' :: ds
      let ws := rest.takeWhile isSpaceCh
      let ext :=
        if ws.isEmpty then none
        else
          let r2 := rest.drop ws.length
          (chipSuffixWords.find? (fun w => w.isPrefixOf r2)).map
            (fun w => (base ++ ws ++ w, r2.drop w.length))
      some ((base, rest), ext)
  | _ => none

/-- Position matcher for `/Apple (M\d+(?:\s+(?:Pro|Max|Ultra))?)/`:
nothing follows the group, so the greedy (extended) capture stands. -/
def matchAppleChipAt (l : List Char) : Option (List Char) :=
  if "Apple ".data.isPrefixOf l then
    (matchChipTokenAt (l.drop 6)).map (fun pr =>
      match pr.2 with
      | some ext => ext.1
      | none => pr.1.1)
  else none

/-- Position matcher for `/(M\d+(?:\s+(?:Pro|Max|Ultra))?)\s*LIT/` (with
`晶片` as the literal): the greedy suffixed capture is tried first and
backtracked to the bare one when the literal does not follow it. -/
def matchChipBeforeLitAt (lit l : List Char) : Option (List Char) :=
  match matchChipTokenAt l with
  | none => none
  | some (bp, ext) =>
    match ext with
    | some (cap, restExt) =>
      if lit.isPrefixOf (restExt.dropWhile isSpaceCh) then some cap
      else if lit.isPrefixOf (bp.2.dropWhile isSpaceCh) then some bp.1
      else none
    | none =>
      if lit.isPrefixOf (bp.2.dropWhile isSpaceCh) then some bp.1 else none

/-- Position matcher for the bare `/(M\d+(?:\s+(?:Pro|Max|Ultra))?)/`. -/
def matchBareChipAt (l : List Char) : Option (List Char) :=
  (matchChipTokenAt l).map (fun pr =>
    match pr.2 with
    | some ext => ext.1
    | none => pr.1.1)

namespace AppleTracker

/-- The product-type containment chain of `parseSpecs`
(src/unnamed/part_002, lines 565-574), in source order (most specific
first). -/
def productTypeNames : List String :=
  ["MacBook Air", "MacBook Pro", "Mac Studio", "Mac mini", "iMac",
   "iPad Pro", "iPad Air", "iPad mini", "iPad", "Apple TV"]

/-- The closed color list of `parseSpecs` (src/unnamed/part_002,
line 630). -/
def colorNames : List String :=
  ["銀色", "太空灰色", "太空黑色", "星光色", "午夜色", "天藍色"]

/-- Embeds `parseSpecs` (src/unnamed/part_002, lines 550-639).  Chip
patterns try the name before the description; memory and storage
patterns try the description before the name; each pattern list is
first-match-wins; the chip capture then loses a leading `Apple ` and a
`晶片` occurrence and is trimmed. -/
def parseSpecs (name description category : String) : ProductSpecs :=
  let n := normalizeNBSP name
  let d := normalizeNBSP description
  let productType := productTypeNames.find? (fun t => containsSub n t.data)
  let screenSize :=
    (scanFirst (matchDigitsWsLit "吋".data) n).map (fun ds => String.mk ds ++ "吋")
  let chipRaw :=
    match (scanFirst matchAppleChipAt n).orElse (fun _ => scanFirst matchAppleChipAt d) with
    | some c => some c
    | none =>
      match (scanFirst (matchChipBeforeLitAt "晶片".data) n).orElse
          (fun _ => scanFirst (matchChipBeforeLitAt "晶片".data) d) with
      | some c => some c
      | none => (scanFirst matchBareChipAt n).orElse (fun _ => scanFirst matchBareChipAt d)
  let chip := chipRaw.map (fun c =>
    String.mk (jsTrim (replaceFirstSub "晶片".data [] (replaceFirstSub "Apple ".data [] c))))
  let memory :=
    match (scanFirst (matchDigitsGBWsLit "統一記憶體".data) d).orElse
        (fun _ => scanFirst (matchDigitsGBWsLit "統一記憶體".data) n) with
    | some ds => some (String.mk ds ++ "GB")
    | none =>
      match (scanFirst (matchDigitsGBWsLit "記憶體".data) d).orElse
          (fun _ => scanFirst (matchDigitsGBWsLit "記憶體".data) n) with
      | some ds => some (String.mk ds ++ "GB")
      | none =>
        ((scanFirst (matchDigitsWsLit ['G', 'B']) d).orElse
          (fun _ => scanFirst (matchDigitsWsLit ['G', 'B']) n)).map
          (fun ds => String.mk ds ++ "GB")
  let storage :=
    match (scanFirst matchNumTBAt d).orElse (fun _ => scanFirst matchNumTBAt n) with
    | some num => some (String.mk num ++ "TB")
    | none =>
      match (scanFirst matchGBssdAt d).orElse (fun _ => scanFirst matchGBssdAt n) with
      | some ds => some (String.mk ds ++ "GB")
      | none =>
        ((scanFirst (matchDigitsGBWsLit "儲存".data) d).orElse
          (fun _ => scanFirst (matchDigitsGBWsLit "儲存".data) n)).map
          (fun ds => String.mk ds ++ "GB")
  let color := colorNames.find? (fun c => containsSub n c.data)
  { screenSize := screenSize, chip := chip, memory := memory, storage := storage,
    color := color, productType := productType,
    category := if category.isEmpty then "Other" else category }

end AppleTracker

/-- History for claim C1: one stored product, listed without query
parameters, so its stored key equals its URL. -/
def c1Stored : List Product :=
  [mkProduct "Apple A" "NT$1" "https://www.apple.com/tw/shop/product/A"]

/-- Current scrape for claim C1: the same product A, now decorated with a
`?fnode=xyz` query string, plus a genuinely new product B. -/
def c1Current : List Product :=
  [mkProduct "Apple A" "NT$1" "https://www.apple.com/tw/shop/product/A?fnode=xyz",
   mkProduct "Apple B" "NT$2" "https://www.apple.com/tw/shop/product/B"]

/-- Product with 2 TB storage for the C3 counterexample. -/
def c3Prod2TB : Product :=
  { name := "MacBook Pro 2TB", price := "NT$50,000", description := "2TB", url := "uc3a",
    specs := { storage := some "2TB" } }

/-- Product with 512 GB storage for the C3 counterexample. -/
def c3Prod512GB : Product :=
  { name := "MacBook Pro 512GB", price := "NT$40,000", description := "512GB", url := "uc3b",
    specs := { storage := some "512GB" } }

/-- Product whose scraped price text carries no digits. -/
def c8NoPrice : Product := mkProduct "Mac mini" "價格未找到" "uc8"

/-- `g` is `f` with zero or more additional fields: wherever `f` has a
field present, `g` carries the same value; where `f` is absent, `g` is
unconstrained. -/
def FilterSpec.AddsFields (f g : FilterSpec) : Prop :=
  (f.productType = g.productType ∨ f.productType = none) ∧
  (f.chip = g.chip ∨ f.chip = none) ∧
  (f.color = g.color ∨ f.color = none) ∧
  (f.minMemory = g.minMemory ∨ f.minMemory = none) ∧
  (f.minStorage = g.minStorage ∨ f.minStorage = none) ∧
  (f.maxPrice = g.maxPrice ∨ f.maxPrice = none)

instance (f g : FilterSpec) : Decidable (FilterSpec.AddsFields f g) := by
  unfold FilterSpec.AddsFields
  infer_instance

/-- Cheap product for the C9 witness. -/
def c9Cheap : Product := mkProduct "Mac A" "NT$500" "uc9a"

/-- Expensive product for the C9 witness. -/
def c9Pricey : Product := mkProduct "Mac B" "NT$2,000" "uc9b"

/-! ## Notification formatter (`formatNewProductMessage`,
src/unnamed/part_002, lines 202-227) -/

/-- A character `String.trim` removes (ASCII whitespace; JS also trims
U+00A0, which can appear in raw names). -/
def isTrimCh (c : Char) : Bool := isSpaceCh c || c = ' '

/-- JS `String.trim`: whitespace removed from both ends. -/
def jsTrimEnds (l : List Char) : List Char :=
  ((l.dropWhile isTrimCh).reverse.dropWhile isTrimCh).reverse

/-- `name.replace(/整修品.*$/, '')`: drop everything from the leftmost
`整修品` that is followed only by non-line-terminator characters up to
the end of the string (without the `m` flag, `$` is end of input). -/
def stripRefurbSuffix : List Char → List Char
  | [] => []
  | l@(c :: t) =>
    if "整修品".data.isPrefixOf l && (l.drop 3).all isDotCh then []
    else c :: stripRefurbSuffix t

/-- The cleaned display name of one message entry
(src/unnamed/part_002, line 214). -/
def shortNameOf (name : String) : String :=
  String.mk (jsTrimEnds (stripRefurbSuffix name.data))

namespace AppleTracker

/-- One product entry of the message (src/unnamed/part_002, lines
217-219): sequence number, cleaned name, price line, link line.  The
URL shortener is a parameter: `shortenUrl` is best-effort and falls
back to the original URL. -/
def entryLine (shorten : String → String) (i : Nat) (p : Product) : String :=
  toString (i + 1) ++ ". " ++ shortNameOf p.name ++ "\n" ++
  "💰 " ++ p.price ++ "\n" ++ "🔗 " ++ shorten p.url ++ "\n\n"

/-- The `for (let i = 0; ...)` body of `formatNewProductMessage`
accumulating entry lines from index `i` on. -/
def msgLoop (shorten : String → String) : Nat → List Product → String
  | _, [] => ""
  | i, p :: rest => entryLine shorten i p ++ msgLoop shorten (i + 1) rest

/-- The message header carrying the total new-product count
(src/unnamed/part_002, line 209). -/
def msgHeader (n : Nat) : String := "🆕 發現 " ++ toString n ++ " 個新翻新產品！\n\n"

/-- The trailing line counting the products left out of the message
(src/unnamed/part_002, line 223). -/
def msgFooter (k : Nat) : String := "📱 還有 " ++ toString k ++ " 個產品"

/-- Embeds `formatNewProductMessage` (src/unnamed/part_002, lines
202-227): `null` on an empty list; otherwise ONE message showing the
first `min(length, 10)` products, numbered from 1, with the header
carrying the full count and, when more than 10 products matched, a
final line giving only the number of products not shown. -/
def formatNewProductMessage (shorten : String → String) (newProducts : List Product) :
    Option String :=
  if newProducts.length = 0 then none
  else
    let maxProducts := min newProducts.length 10
    let displayProducts := newProducts.take maxProducts
    let body := msgHeader newProducts.length ++ msgLoop shorten 0 displayProducts
    some (if newProducts.length > maxProducts then
            body ++ msgFooter (newProducts.length - maxProducts)
          else body)

end AppleTracker

/-! ## Scheduler state (C7) and one tracking pass (C4) -/

/-- The persisted `SystemState` record the specification postulates
(`{isTracking}`); nothing in the source ever reads or writes one, so the
embedded operations below just carry it through. -/
structure SystemStateDoc where
  isTracking : Bool
deriving Repr, DecidableEq

namespace AppleTracker

/-- The tracker's in-memory scheduler state (src/unnamed/part_002,
lines 16-17): the `isTracking` flag and whether the interval timer is
armed. -/
structure SchedulerState where
  isTracking : Bool
  intervalArmed : Bool
deriving Repr, DecidableEq

/-- The constructor state (src/unnamed/part_002, lines 11-22). -/
def initialScheduler : SchedulerState := { isTracking := false, intervalArmed := false }

/-- Process startup: the constructor followed by `init`
(src/unnamed/part_002, lines 113-137).  `init` loads the config,
Firebase, the notification manager and the browser; it neither reads a
persisted system state nor assigns `isTracking`, so the scheduler comes
up `Stopped` whatever was persisted before the restart. -/
def startupScheduler (_persisted : SystemStateDoc) : SchedulerState :=
  initialScheduler

/-- Embeds `startTracking`'s state effect (src/unnamed/part_002, lines
663-674): set the in-memory flag and arm the interval.  The persisted
document is returned unchanged: the method stores nothing. -/
def startTracking (_s : SchedulerState) (persisted : SystemStateDoc) :
    SchedulerState × SystemStateDoc :=
  ({ isTracking := true, intervalArmed := true }, persisted)

/-- Embeds `stopTracking`'s state effect (src/unnamed/part_002, lines
676-683): clear the flag and the interval; again nothing is stored. -/
def stopTracking (_s : SchedulerState) (persisted : SystemStateDoc) :
    SchedulerState × SystemStateDoc :=
  ({ isTracking := false, intervalArmed := false }, persisted)

end AppleTracker

/-- A registered active user as the pass consumes it
(`user.lineUserId`). -/
structure User where
  lineUserId : String
deriving Repr, DecidableEq

/-- An enabled tracking rule; the pass only reads its `filters`. -/
structure TrackingRule where
  filters : FilterSpec
deriving Repr, DecidableEq

/-- Modelled from the spec: `NotificationManager.sendNotification` is
not under src/ (only its caller in src/unnamed/part_002 is).  Per the
specification's external interface and error taxonomy, a send returns
per-channel `{success: bool, ...}` results and must not throw, so one
send outcome is a list of success flags. -/
structure SendResult where
  success : Bool
deriving Repr, DecidableEq

/-- One row of the `notifications` collection: `saveNotification` is
called for every successful send result
(src/unnamed/part_002, lines 725-731). -/
structure SentNotification where
  userId : String
  message : String
  productIds : List String
deriving Repr, DecidableEq

/-- The per-user dedupe (src/unnamed/part_002, lines 710-712): a product
is kept iff its index equals `findIndex` of the first product with the
same `url`, i.e. first occurrences survive; `seen` carries the URLs
already kept. -/
def dedupeByUrlAux (seen : List String) : List Product → List Product
  | [] => []
  | p :: rest =>
    if seen.contains p.url then dedupeByUrlAux seen rest
    else p :: dedupeByUrlAux (p.url :: seen) rest

/-- `userNewMatches.filter((product, index, self) => index ===
self.findIndex(p => p.url === product.url))`. -/
def dedupeByUrl (ps : List Product) : List Product := dedupeByUrlAux [] ps

namespace AppleTracker

/-- The rule loop of one user (src/unnamed/part_002, lines 699-712):
concatenate the filter matches of every enabled rule over the
new-products subset, then dedupe by URL. -/
def userNewMatches (newProducts : List Product) (rules : List TrackingRule) : List Product :=
  dedupeByUrl (rules.foldl (fun acc r =>
    let m := filterProducts newProducts r.filters
    if m.length > 0 then acc ++ m else acc) [])

/-- The notification step of one user (src/unnamed/part_002, lines
714-732): when the user has matches and the formatted message is
non-null and non-empty, send it (`sendU` is that user's send outcome)
and record one notification row per successful result. -/
def userNotifications (shorten : String → String)
    (sendU : String → List String → List SendResult)
    (newProducts : List Product) (rules : List TrackingRule) (u : User) :
    List SentNotification :=
  let matched := userNewMatches newProducts rules
  if matched.length > 0 then
    match formatNewProductMessage shorten matched with
    | none => []
    | some msg =>
      if msg.isEmpty then []
      else
        let productIds := matched.map (fun p => FirebaseService.getProductId p.url)
        let results := sendU msg productIds
        (results.filter (fun r => r.success)).map
          (fun _ => { userId := u.lineUserId, message := msg, productIds := productIds })
  else []

/-- The observable outcome of one tracking pass. -/
structure TrackOutcome where
  savedHistory : List Product
  notifications : List SentNotification
  totalProducts : Nat
  newProductsCount : Nat
  totalNewMatches : Nat
  notifiedUsers : Nat
deriving Repr, DecidableEq

/-- Embeds `trackProducts` (src/unnamed/part_002, lines 685-750): detect
the new products, loop over the active users in order (each user's rules
and send outcome only their own), and finally — unconditionally —
persist ALL current products as the new history (line 738).  Sends are
the spec-modelled non-throwing kind, so no user's failure interrupts the
loop or the final save. -/
def trackProducts (currentProducts storedProducts : List Product)
    (activeUsers : List User) (rulesOf : String → List TrackingRule)
    (shorten : String → String)
    (send : User → String → List String → List SendResult) : TrackOutcome :=
  let newProducts := detectNewProducts storedProducts currentProducts
  { savedHistory := currentProducts
    notifications := activeUsers.flatMap (fun u =>
      userNotifications shorten (send u) newProducts (rulesOf u.lineUserId) u)
    totalProducts := currentProducts.length
    newProductsCount := newProducts.length
    totalNewMatches := (activeUsers.flatMap (fun u =>
      userNewMatches newProducts (rulesOf u.lineUserId))).length
    notifiedUsers := activeUsers.length }

end AppleTracker

/-- Ten products with one-letter names for the C5 instances. -/
def c5TenProducts : List Product :=
  [mkProduct "A" "NT$1" "u1", mkProduct "B" "NT$1" "u2", mkProduct "C" "NT$1" "u3",
   mkProduct "D" "NT$1" "u4", mkProduct "E" "NT$1" "u5", mkProduct "F" "NT$1" "u6",
   mkProduct "G" "NT$1" "u7", mkProduct "H" "NT$1" "u8", mkProduct "I" "NT$1" "u9",
   mkProduct "J" "NT$1" "u0"]

/-- An eleventh product, named `K`. -/
def c5Extra : List Product := [mkProduct "K" "NT$1" "ux"]

/-- First user for the C4 witness. -/
def c4User1 : User := ⟨"user-1"⟩

/-- Second user for the C4 witness. -/
def c4User2 : User := ⟨"user-2"⟩

/-- A send oracle whose every send succeeds. -/
def c4SendOk : User → String → List String → List SendResult := fun _ _ _ => [⟨true⟩]

/-- A send oracle that fails exactly for `user-1`. -/
def c4SendFail1 : User → String → List String → List SendResult :=
  fun v _ _ => if v.lineUserId = "user-1" then [⟨false⟩] else [⟨true⟩]

/-! ## Claims C1 and C2 -/

/-- Helper: `takeWhile (· != '?')` never crosses an inserted `'?'`. -/
theorem takeWhile_append_qmark (l r : List Char) :
    (l ++ '?' :: r).takeWhile (fun c => c != '?') = l.takeWhile (fun c => c != '?') := by
  induction l with
  | nil => simp [List.takeWhile_cons]
  | cons c t ih =>
    by_cases h : c = '?'
    · simp [List.takeWhile_cons, h]
    · simp only [List.cons_append, List.takeWhile_cons]
      have hb : (c != '?') = true := by simpa using h
      simp [hb, ih]

/-- C2: for every URL `u` and query string `q`,
`getProductKey (u ++ "?" ++ q) = getProductKey u` — the key is the URL
truncated at its first `'?'`, so appending a query string never changes
it. -/
theorem getProductKey_query_invariant (u q : String) :
    FirebaseService.getProductKey (u ++ "?" ++ q) = FirebaseService.getProductKey u := by
  unfold FirebaseService.getProductKey
  have hdata : (u ++ "?" ++ q).data = u.data ++ '?' :: q.data := by
    simp [String.data_append]
  rw [hdata, takeWhile_append_qmark]

/-- C1 (code bug): `detectNewProducts` tests the raw current URL against
the ProductKey-keyed history, so product A — whose ProductKey is present
in the history — is still reported as new together with B, instead of
the claimed `[B]`.  The third conjunct shows A's ProductKey really is a
history key. -/
theorem detectNewProducts_raw_url_divergence :
    AppleTracker.detectNewProducts c1Stored c1Current = c1Current ∧
    c1Current ≠ [mkProduct "Apple B" "NT$2" "https://www.apple.com/tw/shop/product/B"] ∧
    (FirebaseService.productHistoryKeys c1Stored).contains
      (FirebaseService.getProductKey
        "https://www.apple.com/tw/shop/product/A?fnode=xyz") = true := by
  decide

/-! ## Claims about the filter engine (C3, C8, C9, C10) -/

/-- Helper: `filter` only depends on the predicate's values. -/
theorem filter_ext_pred {α : Type} (l : List α) (p q : α → Bool) (h : ∀ a, p a = q a) :
    l.filter p = l.filter q := by
  induction l with
  | nil => rfl
  | cons a t ih => simp [List.filter_cons, h a, ih]

/-- Helper: a predicate that always passes filters nothing out. -/
theorem filter_all_pass {α : Type} (l : List α) (p : α → Bool) (h : ∀ a, p a = true) :
    l.filter p = l := by
  induction l with
  | nil => rfl
  | cons a t ih => simp [List.filter_cons, h a, ih]

/-- Helper: a decimal size value is nonnegative. -/
theorem DecSize.val_nonneg (d : DecSize) : 0 ≤ d.val := by
  unfold DecSize.val
  positivity

/-- Helper: the computed `<` on decimals agrees with `<` on their
rational values. -/
theorem DecSize.lt_val (a b : DecSize) : DecSize.lt a b = decide (a.val < b.val) := by
  unfold DecSize.lt DecSize.val
  rw [decide_eq_decide, div_lt_div_iff₀ (by positivity) (by positivity)]
  constructor
  · intro h
    exact_mod_cast h
  · intro h
    exact_mod_cast h

/-- Helper: the scraper's filter predicate with only `minStorage` set is
exactly the size comparison of the two `parseStorageSize` values. -/
theorem scraperPasses_minStorage (s : String) (p : Product) :
    AppleRefurbishedScraper.productPasses { minStorage := some s } p =
      decide ((parseStorageSize (some s)).val ≤ (parseStorageSize p.specs.storage).val) := by
  unfold AppleRefurbishedScraper.productPasses
  simp only [strFieldPass, minMemoryPass, maxPriceScraperPass, minStoragePass,
    Bool.true_and, Bool.and_true]
  by_cases he : s.isEmpty
  · have h0 : parseStorageSize (some s) = ⟨0, 0⟩ := by simp [parseStorageSize, he]
    have hv : (parseStorageSize (some s)).val = 0 := by
      rw [h0]; unfold DecSize.val; norm_num
    simp [he, hv, decide_eq_true_eq, DecSize.val_nonneg]
  · simp only [he, Bool.false_eq_true, if_false, DecSize.lt_val]
    simp [← decide_not, not_lt]

/-- C3 (amended): with `minStorage = s`, the scraper's `filterProducts`
keeps exactly the products whose storage, converted by
`parseStorageSize`, is at least the converted filter value — both sides
use the same parser, `1TB = 1000` GB, and a null or unparseable storage
counts as 0 — while the tracker's `filterProducts` has no `minStorage`
branch at all and keeps every product. -/
theorem filterProducts_minStorage_semantics (ps : List Product) (s : String) :
    AppleRefurbishedScraper.filterProducts ps { minStorage := some s } =
      ps.filter (fun p =>
        decide ((parseStorageSize (some s)).val ≤ (parseStorageSize p.specs.storage).val)) ∧
    AppleTracker.filterProducts ps { minStorage := some s } = ps ∧
    (parseStorageSize (some "1TB")).val = 1000 ∧
    (parseStorageSize (some "2TB")).val = 2000 ∧
    (parseStorageSize (some "512GB")).val = 512 ∧
    (parseStorageSize (some "unknown")).val = 0 ∧
    (parseStorageSize none).val = 0 := by
  have hval : ∀ (o : Option String) (d : DecSize),
      parseStorageSize o = d → (parseStorageSize o).val = d.val := by
    intro o d h
    rw [h]
  refine ⟨?_, ?_, ?_, ?_, ?_, ?_, ?_⟩
  · exact filter_ext_pred ps _ _ (scraperPasses_minStorage s)
  · exact filter_all_pass ps _ (fun p => rfl)
  · rw [hval _ ⟨1000, 0⟩ (by decide)]; unfold DecSize.val; norm_num
  · rw [hval _ ⟨2000, 0⟩ (by decide)]; unfold DecSize.val; norm_num
  · rw [hval _ ⟨512, 0⟩ (by decide)]; unfold DecSize.val; norm_num
  · rw [hval _ ⟨0, 0⟩ (by decide)]; unfold DecSize.val; norm_num
  · rw [hval _ ⟨0, 0⟩ (by decide)]; unfold DecSize.val; norm_num

/-- C3 counterexample: the tracker's `filterProducts` with
`minStorage = "1TB"` keeps the 512 GB product (512 < 1000
notwithstanding), contradicting the claim that it is removed. -/
theorem filterProducts_minStorage_ignored_by_tracker :
    AppleTracker.filterProducts [c3Prod2TB, c3Prod512GB] { minStorage := some "1TB" } =
      [c3Prod2TB, c3Prod512GB] ∧
    c3Prod512GB.specs.storage = some "512GB" ∧
    DecSize.lt (parseStorageSize (some "512GB")) (parseStorageSize (some "1TB")) = true := by
  decide

/-- C8 (amended): with a non-falsy `maxPrice = m`, both filters strip
non-digits from the display price and parse the remainder; the scraper
excludes a product whose remainder is empty (`NaN`) and otherwise keeps
it iff the parsed price is `≤ m`, while the tracker coerces an empty
remainder to 0 and keeps the product iff the 0-defaulted price is `≤ m`
(so a priceless product always passes the tracker's maxPrice check). -/
theorem filterProducts_maxPrice_semantics (ps : List Product) (m : Int) (hm : m ≠ 0) :
    AppleRefurbishedScraper.filterProducts ps { maxPrice := some m } =
      ps.filter (fun p =>
        match parsePriceScraper p.price with
        | none => false
        | some v => decide (v ≤ m)) ∧
    AppleTracker.filterProducts ps { maxPrice := some m } =
      ps.filter (fun p => decide (parsePriceTracker p.price ≤ m)) := by
  constructor
  · apply filter_ext_pred
    intro p
    unfold AppleRefurbishedScraper.productPasses
    simp only [strFieldPass, minMemoryPass, minStoragePass, maxPriceScraperPass,
      Bool.true_and]
    rw [if_neg hm]
    cases parsePriceScraper p.price with
    | none => rfl
    | some v => simp [← decide_not, not_lt]
  · apply filter_ext_pred
    intro p
    unfold AppleTracker.productPasses
    simp only [strFieldPass, minMemoryPass, maxPriceTrackerPass, Bool.true_and]
    rw [if_neg hm]
    simp [← decide_not, not_lt]

/-- C8 counterexample: the tracker's `filterProducts` keeps a product
whose display price contains no digit at all under `maxPrice = 1000`
(the stripped price is empty, coerced to `'0'`), contradicting the claim
that an unparseable price excludes the product; the scraper's version
does exclude it. -/
theorem filterProducts_maxPrice_unparseable_kept_by_tracker :
    stripNonDigits c8NoPrice.price = [] ∧
    AppleTracker.filterProducts [c8NoPrice] { maxPrice := some 1000 } = [c8NoPrice] ∧
    AppleRefurbishedScraper.filterProducts [c8NoPrice] { maxPrice := some 1000 } = [] := by
  decide

/-- C8 witness: the characterization applied at a concrete product and
`maxPrice = 1000`. -/
theorem filterProducts_maxPrice_semantics_witness :
    AppleRefurbishedScraper.filterProducts [c8NoPrice] { maxPrice := some 1000 } =
      [c8NoPrice].filter (fun p =>
        match parsePriceScraper p.price with
        | none => false
        | some v => decide (v ≤ 1000)) ∧
    AppleTracker.filterProducts [c8NoPrice] { maxPrice := some 1000 } =
      [c8NoPrice].filter (fun p => decide (parsePriceTracker p.price ≤ 1000)) :=
  filterProducts_maxPrice_semantics [c8NoPrice] 1000 (by decide)

/-- Helper: the tracker's predicate only gets harder to satisfy when
fields are added. -/
theorem trackerPasses_mono {f g : FilterSpec} (h : FilterSpec.AddsFields f g) (p : Product) :
    AppleTracker.productPasses g p = true → AppleTracker.productPasses f p = true := by
  obtain ⟨h1, h2, h3, h4, _h5, h6⟩ := h
  unfold AppleTracker.productPasses
  intro hg
  simp only [Bool.and_assoc, Bool.and_eq_true] at hg ⊢
  obtain ⟨hg1, hg2, hg3, hg4, hg5⟩ := hg
  refine ⟨?_, ?_, ?_, ?_, ?_⟩
  · rcases h1 with h1 | h1
    · rw [h1]; exact hg1
    · rw [h1]; rfl
  · rcases h2 with h2 | h2
    · rw [h2]; exact hg2
    · rw [h2]; rfl
  · rcases h3 with h3 | h3
    · rw [h3]; exact hg3
    · rw [h3]; rfl
  · rcases h4 with h4 | h4
    · rw [h4]; exact hg4
    · rw [h4]; rfl
  · rcases h6 with h6 | h6
    · rw [h6]; exact hg5
    · rw [h6]; rfl

/-- Helper: the scraper's predicate only gets harder to satisfy when
fields are added. -/
theorem scraperPasses_mono {f g : FilterSpec} (h : FilterSpec.AddsFields f g) (p : Product) :
    AppleRefurbishedScraper.productPasses g p = true →
      AppleRefurbishedScraper.productPasses f p = true := by
  obtain ⟨h1, h2, h3, h4, h5, h6⟩ := h
  unfold AppleRefurbishedScraper.productPasses
  intro hg
  simp only [Bool.and_assoc, Bool.and_eq_true] at hg ⊢
  obtain ⟨hg1, hg2, hg3, hg4, hg5, hg6⟩ := hg
  refine ⟨?_, ?_, ?_, ?_, ?_, ?_⟩
  · rcases h1 with h1 | h1
    · rw [h1]; exact hg1
    · rw [h1]; rfl
  · rcases h2 with h2 | h2
    · rw [h2]; exact hg2
    · rw [h2]; rfl
  · rcases h4 with h4 | h4
    · rw [h4]; exact hg3
    · rw [h4]; rfl
  · rcases h5 with h5 | h5
    · rw [h5]; exact hg4
    · rw [h5]; rfl
  · rcases h3 with h3 | h3
    · rw [h3]; exact hg5
    · rw [h3]; rfl
  · rcases h6 with h6 | h6
    · rw [h6]; exact hg6
    · rw [h6]; rfl

/-- C9: adding fields to a `FilterSpec` can only shrink the result of
either `filterProducts`: the extended-filter result is a sublist of the
original-filter result, so its size never increases. -/
theorem filterProducts_monotone (ps : List Product) (f g : FilterSpec)
    (h : FilterSpec.AddsFields f g) :
    List.Sublist (AppleTracker.filterProducts ps g) (AppleTracker.filterProducts ps f) ∧
    (AppleTracker.filterProducts ps g).length ≤ (AppleTracker.filterProducts ps f).length ∧
    List.Sublist (AppleRefurbishedScraper.filterProducts ps g)
      (AppleRefurbishedScraper.filterProducts ps f) ∧
    (AppleRefurbishedScraper.filterProducts ps g).length ≤
      (AppleRefurbishedScraper.filterProducts ps f).length := by
  have ht := List.monotone_filter_right ps (fun a => trackerPasses_mono h a)
  have hs := List.monotone_filter_right ps (fun a => scraperPasses_mono h a)
  exact ⟨ht, ht.length_le, hs, hs.length_le⟩

/-- C9 witness: monotonicity applied to the empty filter extended with
`maxPrice = 1000` on a concrete two-product list. -/
theorem filterProducts_monotone_witness :
    FilterSpec.AddsFields {} { maxPrice := some 1000 } ∧
    (AppleTracker.filterProducts [c9Cheap, c9Pricey] { maxPrice := some 1000 }).length ≤
      (AppleTracker.filterProducts [c9Cheap, c9Pricey] ({} : FilterSpec)).length :=
  ⟨by decide,
   (filterProducts_monotone [c9Cheap, c9Pricey] {} { maxPrice := some 1000 } (by decide)).2.1⟩

/-- C10: a present-but-falsy filter field (`maxPrice: 0`, `minMemory: 0`,
or an empty string for `productType`, `chip`, `color`) is skipped by the
`if (filters.x)` guards exactly like an absent field, so both
`filterProducts` return the whole input list. -/
theorem filterProducts_falsy_fields_no_constraint (ps : List Product) :
    AppleTracker.filterProducts ps {} = ps ∧
    AppleTracker.filterProducts ps { maxPrice := some 0 } = ps ∧
    AppleTracker.filterProducts ps { minMemory := some 0 } = ps ∧
    AppleTracker.filterProducts ps { productType := some "" } = ps ∧
    AppleTracker.filterProducts ps { chip := some "" } = ps ∧
    AppleTracker.filterProducts ps { color := some "" } = ps ∧
    AppleRefurbishedScraper.filterProducts ps {} = ps ∧
    AppleRefurbishedScraper.filterProducts ps { maxPrice := some 0 } = ps ∧
    AppleRefurbishedScraper.filterProducts ps { minMemory := some 0 } = ps ∧
    AppleRefurbishedScraper.filterProducts ps { productType := some "" } = ps ∧
    AppleRefurbishedScraper.filterProducts ps { chip := some "" } = ps ∧
    AppleRefurbishedScraper.filterProducts ps { color := some "" } = ps := by
  refine ⟨?_, ?_, ?_, ?_, ?_, ?_, ?_, ?_, ?_, ?_, ?_, ?_⟩ <;>
    exact filter_all_pass ps _ (fun p => rfl)

/-! ## Claim C6 -/

/-- C6 (code bug): on the scenario listing, `parseSpecs` extracts
productType `MacBook Air`, screen size `13吋`, chip `M4` and memory
`16GB` as claimed, but its storage pattern `/(\d+)GB.*SSD/` matches the
leftmost `16GB` of the description (the `.*` bridging to the ` SSD`
marker), so `storage` comes out `"16GB"`, not the claimed `"256GB"`. -/
theorem parseSpecs_scenario_storage_divergence :
    AppleTracker.parseSpecs "Apple MacBook Air 13吋 M4晶片 8核心CPU 16GB統一記憶體"
        "16GB統一記憶體 256GB SSD" "Mac" =
      { productType := some "MacBook Air", screenSize := some "13吋", chip := some "M4",
        memory := some "16GB", storage := some "16GB", color := none, category := "Mac" } ∧
    (AppleTracker.parseSpecs "Apple MacBook Air 13吋 M4晶片 8核心CPU 16GB統一記憶體"
        "16GB統一記憶體 256GB SSD" "Mac").storage ≠ some "256GB" := by
  decide

/-! ## Claims C5, C7, C4 -/

/-- C5 (amended): `formatNewProductMessage` never batches: past ten
matches it emits one single message whose entry list covers exactly the
first ten products (in order, numbered from 1), the header carrying the
total count and the final line only the number of unlisted products;
with at most ten products the whole list is shown and no final line is
added. -/
theorem formatNewProductMessage_truncates (shorten : String → String) (ps qs : List Product)
    (h : ps.length = 10) (hq : qs ≠ []) :
    AppleTracker.formatNewProductMessage shorten (ps ++ qs) =
      some (AppleTracker.msgHeader (10 + qs.length) ++ AppleTracker.msgLoop shorten 0 ps ++
        AppleTracker.msgFooter qs.length) ∧
    AppleTracker.formatNewProductMessage shorten ps =
      some (AppleTracker.msgHeader 10 ++ AppleTracker.msgLoop shorten 0 ps) := by
  have hql : 0 < qs.length := List.length_pos.mpr hq
  have hlen : (ps ++ qs).length = 10 + qs.length := by
    rw [List.length_append, h]
  have htake : (ps ++ qs).take 10 = ps := by
    rw [← h]
    exact List.take_left ps qs
  have htake2 : ps.take 10 = ps := by
    rw [← h]
    exact List.take_length ps
  constructor
  · simp only [AppleTracker.formatNewProductMessage, hlen]
    rw [if_neg (by omega : ¬(10 + qs.length = 0))]
    rw [(by omega : min (10 + qs.length) 10 = 10)]
    rw [htake]
    rw [if_pos (by omega : 10 + qs.length > 10)]
    rw [(by omega : 10 + qs.length - 10 = qs.length)]
  · simp only [AppleTracker.formatNewProductMessage, h]
    rw [if_neg (by omega : ¬((10 : Nat) = 0))]
    rw [(by omega : min (10 : Nat) 10 = 10)]
    rw [htake2]
    rw [if_neg (by omega : ¬((10 : Nat) > 10))]

/-- C5 witness: the truncation shape at ten-plus-one concrete products
with the identity shortener. -/
theorem formatNewProductMessage_truncates_witness :
    AppleTracker.formatNewProductMessage (fun u => u) (c5TenProducts ++ c5Extra) =
      some (AppleTracker.msgHeader (10 + c5Extra.length) ++
        AppleTracker.msgLoop (fun u => u) 0 c5TenProducts ++
        AppleTracker.msgFooter c5Extra.length) :=
  (formatNewProductMessage_truncates (fun u => u) c5TenProducts c5Extra (by decide)
    (by decide)).1

/-- C5 counterexample: with eleven matches the eleventh product (named
`K`) appears in no message at all — the single produced message does not
even contain the letter `K` — so the claimed partition of the whole
list into batches does not happen. -/
theorem formatNewProductMessage_drops_eleventh :
    (c5TenProducts ++ c5Extra).length = 11 ∧
    ((c5TenProducts ++ c5Extra).getLast?).map (fun p => p.name) = some "K" ∧
    (AppleTracker.formatNewProductMessage (fun u => u) (c5TenProducts ++ c5Extra)).map
      (fun m => m.data.contains 'K') = some false := by
  decide

/-- C7 counterexample: starting the tracker over a persisted
`{isTracking := false}` record leaves that record `false` (nothing is
persisted), and starting the process over a persisted
`{isTracking := true}` record still comes up with the scheduler stopped
(no auto-resume) — both directly against the claim. -/
theorem trackingState_not_persisted :
    (AppleTracker.startTracking AppleTracker.initialScheduler ⟨false⟩).2.isTracking = false ∧
    (AppleTracker.startupScheduler ⟨true⟩).isTracking = false := by
  decide

/-- C7 (amended): `startTracking` and `stopTracking` only flip the
in-memory `isTracking` flag and timer, never writing the persisted
record, and process startup ignores whatever record exists and comes up
stopped: the tracking state does not survive a restart. -/
theorem trackingState_in_memory_only (s : AppleTracker.SchedulerState) (d : SystemStateDoc) :
    (AppleTracker.startTracking s d).1.isTracking = true ∧
    (AppleTracker.startTracking s d).2 = d ∧
    (AppleTracker.stopTracking s d).1.isTracking = false ∧
    (AppleTracker.stopTracking s d).2 = d ∧
    (AppleTracker.startupScheduler d).isTracking = false :=
  ⟨rfl, rfl, rfl, rfl, rfl⟩

/-- Helper: every notification row a user's step produces carries that
user's id. -/
theorem userNotifications_userId (shorten : String → String)
    (sendU : String → List String → List SendResult)
    (newProducts : List Product) (rules : List TrackingRule) (u : User) :
    ∀ nt ∈ AppleTracker.userNotifications shorten sendU newProducts rules u,
      nt.userId = u.lineUserId := by
  intro nt hnt
  simp only [AppleTracker.userNotifications] at hnt
  split at hnt
  · split at hnt
    · simp at hnt
    · split at hnt
      · simp at hnt
      · simp only [List.mem_map] at hnt
        obtain ⟨r, _, rfl⟩ := hnt
        rfl
  · simp at hnt

/-- Helper: `filter` after `flatMap` agrees across two generators whose
filtered images agree pointwise. -/
theorem filter_flatMap_congr {α β : Type} (l : List α) (g g' : α → List β) (p : β → Bool)
    (h : ∀ a ∈ l, (g' a).filter p = (g a).filter p) :
    (l.flatMap g').filter p = (l.flatMap g).filter p := by
  induction l with
  | nil => rfl
  | cons a t ih =>
    simp only [List.flatMap_cons, List.filter_append]
    rw [h a (by simp), ih (fun b hb => h b (by simp [hb]))]

/-- C4: a failing send for one user `u` — modelled as replacing the send
oracle by any other one that agrees on every other user — never changes
the history that the pass persists (always all current products) and
never changes any other user's recorded notifications: per-user failures
stay isolated and do not block the unconditional history save. -/
theorem trackProducts_isolates_user_failures
    (currentProducts storedProducts : List Product) (activeUsers : List User)
    (rulesOf : String → List TrackingRule) (shorten : String → String)
    (send send' : User → String → List String → List SendResult) (u : User)
    (hagree : ∀ v m pids, v.lineUserId ≠ u.lineUserId → send' v m pids = send v m pids) :
    (AppleTracker.trackProducts currentProducts storedProducts activeUsers rulesOf
        shorten send').savedHistory = currentProducts ∧
    (AppleTracker.trackProducts currentProducts storedProducts activeUsers rulesOf
        shorten send).savedHistory = currentProducts ∧
    (AppleTracker.trackProducts currentProducts storedProducts activeUsers rulesOf
        shorten send').notifications.filter (fun nt => nt.userId != u.lineUserId) =
      (AppleTracker.trackProducts currentProducts storedProducts activeUsers rulesOf
        shorten send).notifications.filter (fun nt => nt.userId != u.lineUserId) := by
  refine ⟨rfl, rfl, ?_⟩
  simp only [AppleTracker.trackProducts]
  apply filter_flatMap_congr
  intro v _
  by_cases hv : v.lineUserId = u.lineUserId
  · rw [List.filter_eq_nil_iff.mpr, List.filter_eq_nil_iff.mpr]
    · intro nt hnt
      have := userNotifications_userId shorten (send v) _ _ v nt hnt
      simp [this, hv]
    · intro nt hnt
      have := userNotifications_userId shorten (send' v) _ _ v nt hnt
      simp [this, hv]
  · have hsv : send' v = send v :=
      funext (fun m => funext (fun pids => hagree v m pids hv))
    rw [hsv]

/-- C4 witness: the isolation theorem applied to two concrete users, a
one-product scrape, an all-matching rule, and the oracle that fails for
user 1 against the one that succeeds everywhere. -/
theorem trackProducts_isolates_witness :
    (AppleTracker.trackProducts [mkProduct "P" "NT$1" "up"] [] [c4User1, c4User2]
        (fun _ => [⟨{}⟩]) (fun u => u) c4SendFail1).savedHistory =
      [mkProduct "P" "NT$1" "up"] ∧
    (AppleTracker.trackProducts [mkProduct "P" "NT$1" "up"] [] [c4User1, c4User2]
        (fun _ => [⟨{}⟩]) (fun u => u) c4SendOk).savedHistory =
      [mkProduct "P" "NT$1" "up"] ∧
    (AppleTracker.trackProducts [mkProduct "P" "NT$1" "up"] [] [c4User1, c4User2]
        (fun _ => [⟨{}⟩]) (fun u => u) c4SendFail1).notifications.filter
        (fun nt => nt.userId != c4User1.lineUserId) =
      (AppleTracker.trackProducts [mkProduct "P" "NT$1" "up"] [] [c4User1, c4User2]
        (fun _ => [⟨{}⟩]) (fun u => u) c4SendOk).notifications.filter
        (fun nt => nt.userId != c4User1.lineUserId) :=
  trackProducts_isolates_user_failures [mkProduct "P" "NT$1" "up"] [] [c4User1, c4User2]
    (fun _ => [⟨{}⟩]) (fun u => u) c4SendOk c4SendFail1 c4User1
    (fun v m pids hv => by
      simp only [c4User1] at hv
      simp [c4SendFail1, c4SendOk, hv])
